import Mathlib

/-!
Verification of the SmartDoc-AI retrieval subsystem.

This file gives a shallow embedding, over exact rationals, of the retrieval
core of the repository: the document-loader dispatch (`modules/document_loader.py`),
the hash-based fallback embedding provider `LocalEmbeddings`
(`modules/vectorstore.py`), the in-memory fallback vector store
`SimpleVectorStore` (`modules/simple_vectorstore.py`), and the retriever
construction with its reranker fallback (`modules/retriever.py`).

External primitives that the Python code calls but that are not part of the
repository (the MD5 digest, the floating-point square root, and the global
`random` module) are modelled as explicit parameters collected in
`PyExternals`; the state of Python's global random generator is threaded
explicitly as a `Nat` so that statements about call-to-call reproducibility
are meaningful.
-/

namespace SmartDoc

/-- External primitives used by the Python source but defined outside the
repository: `sqrt` stands for the machine square root (`** 0.5` and
`np.linalg.norm`'s final root), `md5_bytes text` stands for
`hashlib.md5(text.encode()).hexdigest()` followed by the source's
`int(text_hash[i:i+2], 16)` conversion of consecutive hex-digit pairs, i.e.
the sixteen digest bytes as integers in `[0, 255]`; `seed` and `uniform`
model `random.seed` and `random.uniform(-1.0, 1.0)` acting on the global
generator state. -/
structure PyExternals where
  sqrt : ℚ → ℚ
  md5_bytes : String → List Nat
  seed : Nat → Nat
  uniform : Nat → ℚ × Nat

/-- Python `sum(x*x for x in v)`, the squared Euclidean magnitude used by
`_create_random_embedding` and (under `np.linalg.norm`) by
`_cosine_similarity`. -/
def sumSq (v : List ℚ) : ℚ := (v.map fun x => x * x).sum

/-- Model of `np.dot` on two vectors of equal length. -/
def dot (v1 v2 : List ℚ) : ℚ := (List.zipWith (· * ·) v1 v2).sum

/-- Python truthiness test `not text or not text.strip()`: the string is
empty or consists of whitespace only. -/
def isBlank (text : String) : Bool := text.data.all Char.isWhitespace

/-! ### modules/document_loader.py -/

/-- The four loader families that `load_documents` can dispatch to
(`load_pdf`, `load_docx`, `load_excel`, `load_text`). -/
inductive Loader where
  | pdf
  | docx
  | excel
  | text
deriving DecidableEq

/-- Embedding of `filename.lower().split('.')[-1]`: lowercase the filename
and keep the characters after the last dot (the whole name when there is no
dot, matching Python's `split`). -/
def file_extension (filename : String) : List Char :=
  (filename.data.map Char.toLower).foldl (fun acc c => if c = '.' then [] else acc ++ [c]) []

/-- Embedding of `load_documents`: dispatch on the file extension, raising
`ValueError(f"Unsupported file type: {file_extension}")` (modelled as
`Except.error`) for any extension outside the supported six. A successful
dispatch names the loader that the source would invoke. -/
def load_documents (filename : String) : Except String Loader :=
  let file_ext := file_extension filename
  if file_ext = "pdf".data then .ok .pdf
  else if file_ext = "doc".data ∨ file_ext = "docx".data then .ok .docx
  else if file_ext = "xls".data ∨ file_ext = "xlsx".data then .ok .excel
  else if file_ext = "txt".data then .ok .text
  else .error ("Unsupported file type: " ++ String.mk file_ext)

/-! ### modules/vectorstore.py, class LocalEmbeddings -/

namespace LocalEmbeddings

/-- Embedding of the padding loop in `_text_to_embedding`:

    for i in range(len(numbers), self.dimensions):
        numbers.append((numbers[i % len(numbers)] + i) % 256)

The loop runs `dimensions - len(numbers)` times (the fuel argument), and at
each iteration the loop variable `i` equals the current `len(numbers)`,
because the list grows by exactly one element per iteration starting from
its initial length. The body is kept verbatim with `i` replaced by the
current length. -/
def extend_loop : Nat → List Nat → List Nat
  | 0, numbers => numbers
  | fuel + 1, numbers =>
    extend_loop fuel
      (numbers ++ [(numbers.getD (numbers.length % numbers.length) 0 + numbers.length) % 256])

/-- Embedding of the pad-or-truncate step of `_text_to_embedding`:
`if len(numbers) < self.dimensions` run the padding loop, else
`numbers = numbers[:self.dimensions]`. -/
def pad_or_truncate (dims : Nat) (numbers : List Nat) : List Nat :=
  if numbers.length < dims then extend_loop (dims - numbers.length) numbers
  else numbers.take dims

/-- Embedding of `_text_to_embedding` (success path of its defensive
`try/except`, which can only fail if the hash library itself fails): hash
the text, pad or truncate the byte sequence to `dims` entries, then map
`float(num) / 255.0` over it. -/
def text_to_embedding (ctx : PyExternals) (dims : Nat) (text : String) : List ℚ :=
  let numbers := ctx.md5_bytes text
  List.map (fun (num : Nat) => (num : ℚ) / 255) (pad_or_truncate dims numbers)

/-- A run of `n` calls of `random.uniform(-1.0, 1.0)` starting from
generator state `s`, returning the sampled values and the final state. -/
def uniform_list (uniform : Nat → ℚ × Nat) : Nat → Nat → List ℚ × Nat
  | 0, s => ([], s)
  | n + 1, s =>
    let p := uniform s
    let rest := uniform_list uniform n p.2
    (p.1 :: rest.1, rest.2)

/-- Embedding of `_create_random_embedding`: reseed the global generator
with the fixed seed 42 (discarding the incoming state `s`), draw `dims`
uniform values, and normalize by the magnitude `sum(x*x) ** 0.5` when it is
positive. The incoming generator state is an argument so that independence
from it is a provable statement rather than a modelling assumption. -/
def create_random_embedding (ctx : PyExternals) (dims : Nat) (s : Nat) : List ℚ × Nat :=
  let s0 := ctx.seed 42
  let r := uniform_list ctx.uniform dims s0
  let magnitude := ctx.sqrt (sumSq r.1)
  (if 0 < magnitude then r.1.map (fun x => x / magnitude) else r.1, r.2)

/-- Embedding of `LocalEmbeddings.embed_query`: blank text routes to
`_create_random_embedding`, anything else to `_text_to_embedding`. The
second component is the generator state after the call. -/
def embed_query (ctx : PyExternals) (dims : Nat) (text : String) (s : Nat) : List ℚ × Nat :=
  if isBlank text then create_random_embedding ctx dims s
  else (text_to_embedding ctx dims text, s)

/-- The per-text loop of `LocalEmbeddings.embed_documents`, threading the
generator state through the successive calls. -/
def embed_documents_loop (ctx : PyExternals) (dims : Nat) :
    List String → Nat → List (List ℚ) × Nat
  | [], s => ([], s)
  | text :: rest, s =>
    let e :=
      if isBlank text then create_random_embedding ctx dims s
      else (text_to_embedding ctx dims text, s)
    let tail := embed_documents_loop ctx dims rest e.2
    (e.1 :: tail.1, tail.2)

/-- Embedding of `LocalEmbeddings.embed_documents`: `if not texts: return []`,
else embed each text in order. -/
def embed_documents (ctx : PyExternals) (dims : Nat) (texts : List String) (s : Nat) :
    List (List ℚ) × Nat :=
  if texts.isEmpty then ([], s)
  else embed_documents_loop ctx dims texts s

end LocalEmbeddings

/-- Reference definition following the specification's words for the padding
step: "extend ... to exactly the target dimensionality (periodic extension:
`value[i] = (value[i mod hash_len] + i) mod 256` for indices beyond the hash
length)", with `hash_len` the length of the original hash-byte sequence. -/
def spec_extend (dims : Nat) (numbers : List Nat) : List Nat :=
  numbers ++ (List.range' numbers.length (dims - numbers.length)).map
    (fun i => (numbers.getD (i % numbers.length) 0 + i) % 256)

/-- Reference definition following the specification's words for the whole
fallback hash embedding: periodic extension, truncation to `dims` if longer,
then division of every entry by 255. -/
def spec_hash_embedding (dims : Nat) (numbers : List Nat) : List ℚ :=
  List.map (fun (num : Nat) => (num : ℚ) / 255) ((spec_extend dims numbers).take dims)

/-- Reference definition following the specification's words, applied to the
hash bytes of a text. -/
def spec_text_to_embedding (ctx : PyExternals) (dims : Nat) (text : String) : List ℚ :=
  spec_hash_embedding dims (ctx.md5_bytes text)

/-- Modelled from the spec: the primary sentence-embedding model
(`HuggingFaceEmbeddings` in `create_vector_store`) is an external dependency
whose code is not part of the repository; the specification states it is
"deterministic given the same model weights", so a loaded instance is
modelled as a pure function of the text. -/
structure PrimaryEmbeddings where
  embed_documents : List String → List (List ℚ)
  embed_query : String → List ℚ

/-- The two embedding strategies of `create_vector_store`: the primary
model-based producer, or the `LocalEmbeddings` fallback. -/
inductive EmbeddingStrategy where
  | primary (m : PrimaryEmbeddings)
  | fallback

/-- Query embedding under either strategy, threading the generator state. -/
def strategy_embed_query (ctx : PyExternals) (dims : Nat) :
    EmbeddingStrategy → String → Nat → List ℚ × Nat
  | .primary m, text, s => (m.embed_query text, s)
  | .fallback, text, s => LocalEmbeddings.embed_query ctx dims text s

/-- Batch embedding under either strategy, threading the generator state. -/
def strategy_embed_batch (ctx : PyExternals) (dims : Nat) :
    EmbeddingStrategy → List String → Nat → List (List ℚ) × Nat
  | .primary m, texts, s => (m.embed_documents texts, s)
  | .fallback, texts, s => LocalEmbeddings.embed_documents ctx dims texts s

/-! ### modules/simple_vectorstore.py -/

/-- A LangChain `Document`: text content plus a metadata dictionary. -/
structure Document where
  page_content : String
  metadata : List (String × String)
deriving DecidableEq

/-- The interface `SimpleVectorStore` requires of its `embedding_model`
object: `embed_documents` and `embed_query`. -/
structure EmbeddingModel where
  embed_documents : List String → List (List ℚ)
  embed_query : String → List ℚ

/-- Embedding of `SimpleVectorStore._cosine_similarity`: compute both norms
with `np.linalg.norm` (square root of the sum of squares), return `0.0`
when either is zero, and otherwise `np.dot(vec1, vec2) / (norm1 * norm2)`. -/
def cosine_similarity (sq : ℚ → ℚ) (vec1 vec2 : List ℚ) : ℚ :=
  let norm1 := sq (sumSq vec1)
  let norm2 := sq (sumSq vec2)
  if norm1 = 0 ∨ norm2 = 0 then 0 else dot vec1 vec2 / (norm1 * norm2)

/-- The state of a `SimpleVectorStore` after `__init__`. -/
structure SimpleVectorStore where
  embedding_model : EmbeddingModel
  documents : List Document
  embeddings : List (List ℚ)
  metadata : List (List (String × String))

/-- Embedding of `SimpleVectorStore.__init__` followed by
`_create_embeddings` (success path of its `try/except`): keep the documents,
embed the truthy `page_content` of each with the stored model, and record
the corresponding metadata. -/
def SimpleVectorStore.create (model : EmbeddingModel) (docs : List Document) :
    SimpleVectorStore :=
  let kept := docs.filter (fun d => d.page_content != "")
  { embedding_model := model
    documents := docs
    embeddings := model.embed_documents (kept.map (fun d => d.page_content))
    metadata := kept.map (fun d => d.metadata) }

/-- The `similarities` list of `similarity_search`: for each stored
embedding, the pair `(cosine similarity to the query embedding, index)`,
where the query embedding is produced by the store's own model. -/
def similarity_list (sq : ℚ → ℚ) (store : SimpleVectorStore) (query : String) :
    List (ℚ × Nat) :=
  let query_embedding := store.embedding_model.embed_query query
  store.embeddings.enum.map (fun p => (cosine_similarity sq query_embedding p.2, p.1))

/-- The Python descending sort key: `similarities.sort(reverse=True)` orders
the `(similarity, index)` tuples lexicographically downwards. -/
def sim_desc (a b : ℚ × Nat) : Bool :=
  decide (b.1 < a.1) || (decide (a.1 = b.1) && decide (b.2 ≤ a.2))

/-- The sorted `similarities` list of `similarity_search`. -/
def sorted_similarities (sq : ℚ → ℚ) (store : SimpleVectorStore) (query : String) :
    List (ℚ × Nat) :=
  (similarity_list sq store query).mergeSort sim_desc

/-- Embedding of `SimpleVectorStore.similarity_search`: return `[]` when no
embeddings are stored; otherwise embed the query with the store's model,
sort the `(similarity, index)` pairs descending, take the first `k` indices,
and collect the documents at each index that is in range. -/
def similarity_search (sq : ℚ → ℚ) (store : SimpleVectorStore) (query : String)
    (k : Nat := 5) : List Document :=
  if store.embeddings.isEmpty then []
  else
    ((sorted_similarities sq store query).take k).filterMap
      (fun p => store.documents.get? p.2)

/-! ### modules/retriever.py -/

/-- A loaded cross-encoder reranking stage
(`CrossEncoderReranker`/`ContextualCompressionRetriever`): an external model
treated as an opaque function from the query, the candidate list and `top_n`
to the reranked list. -/
structure CrossEncoder where
  rerank : String → List Document → Nat → List Document

/-- Embedding of the control flow of `create_retriever` at query time:
if the cross-encoder model loaded (`some ce`), the compression retriever
reranks the base retriever's candidates down to `top_n`; if loading raised
(`none`, the `except` branch), the function returns `base_retriever`
itself, so a query produces the base candidates directly. The
`SimpleRetriever` early-return branch has this same `none` shape. -/
def create_retriever (cross : Option CrossEncoder) (base : String → List Document)
    (top_n : Nat) : String → List Document :=
  fun query =>
    match cross with
    | some ce => ce.rerank query (base query) top_n
    | none => base query

/-- Reference definition following the claim's words for the reranker
fallback: "return the first `top_n` candidates unchanged". -/
def spec_rerank (candidates : List Document) (top_n : Nat) : List Document :=
  candidates.take top_n

/-! ### Concrete instances used by witnesses and counterexamples -/

/-- The MD5 digest of the one-character text "a"
(hex `0cc175b9c0f1b6a831c399e269772661`) as byte values, exactly what the
source's `int(text_hash[i:i+2], 16)` comprehension produces for that text. -/
def md5aBytes : List Nat :=
  [12, 193, 117, 185, 192, 241, 182, 168, 49, 195, 153, 226, 105, 119, 38, 97]

/-- A concrete instantiation of the external primitives, used to witness the
hypotheses of the theorems below: the square root is taken at arguments
where it is the identity, the hash always returns the digest bytes of "a",
seeding resets the generator state to 0, and the generator emits `3/5` then
`4/5` then zeros. -/
def ctxW : PyExternals where
  sqrt := fun q => q
  md5_bytes := fun _ => md5aBytes
  seed := fun _ => 0
  uniform := fun s => (if s = 0 then 3/5 else if s = 1 then 4/5 else 0, s + 1)

/-- A concrete document used in counterexamples and witnesses. -/
def docA : Document := { page_content := "A", metadata := [] }

/-- A second concrete document used in counterexamples and witnesses. -/
def docB : Document := { page_content := "B", metadata := [] }

/-- A concrete embedding model used by witnesses. -/
def modelW : EmbeddingModel where
  embed_documents := fun texts => texts.map (fun _ => [1, 0])
  embed_query := fun _ => [1, 0]

/-- A concrete store whose embedding list is empty. -/
def storeE : SimpleVectorStore where
  embedding_model := modelW
  documents := []
  embeddings := []
  metadata := []

/-! ### Helper lemmas -/

/-- The Python descending tuple order is transitive. -/
theorem sim_desc_trans :
    ∀ a b c : ℚ × Nat, sim_desc a b = true → sim_desc b c = true → sim_desc a c = true := by
  intro a b c hab hbc
  simp only [sim_desc, Bool.or_eq_true, Bool.and_eq_true, decide_eq_true_eq] at *
  rcases hab with h1 | ⟨h1, h1'⟩ <;> rcases hbc with h2 | ⟨h2, h2'⟩
  · exact Or.inl (h2.trans h1)
  · exact Or.inl (h2 ▸ h1)
  · exact Or.inl (h1 ▸ h2)
  · exact Or.inr ⟨h1.trans h2, le_trans h2' h1'⟩

/-- The Python descending tuple order is total. -/
theorem sim_desc_total : ∀ a b : ℚ × Nat, (sim_desc a b || sim_desc b a) = true := by
  intro a b
  simp only [sim_desc, Bool.or_eq_true, Bool.and_eq_true, decide_eq_true_eq]
  rcases lt_trichotomy a.1 b.1 with h | h | h
  · tauto
  · rcases Nat.le_total a.2 b.2 with h' | h' <;> tauto
  · tauto

/-- The similarity components of the descending-sorted tuple list are
non-increasing, even after truncation to the first `k` entries. -/
theorem sorted_similarities_take_sorted (sq : ℚ → ℚ) (store : SimpleVectorStore)
    (query : String) (k : Nat) :
    (((sorted_similarities sq store query).take k).map Prod.fst).Sorted (· ≥ ·) := by
  have h := @List.sorted_mergeSort _ sim_desc sim_desc_trans sim_desc_total
    (similarity_list sq store query)
  have h2 : ((sorted_similarities sq store query).take k).Pairwise
      (fun a b => sim_desc a b = true) :=
    List.Pairwise.sublist (List.take_sublist k _) h
  refine h2.map Prod.fst ?_
  intro a b hab
  simp only [sim_desc, Bool.or_eq_true, Bool.and_eq_true, decide_eq_true_eq] at hab
  rcases hab with h1 | ⟨h1, _⟩
  · exact le_of_lt h1
  · exact le_of_eq h1.symm

/-! ### Claim theorems -/

/-- C1 counterexample: with the cross-encoder unavailable and a base
retriever producing two candidates, the retriever built by
`create_retriever` returns both candidates for `top_n = 1`, not the first
one candidate that the claim (`rerank(q, cs, n) = cs[:n]`) predicts. -/
theorem create_retriever_fallback_not_truncated :
    create_retriever none (fun _ => [docA, docB]) 1 "q" ≠
      spec_rerank [docA, docB] 1 := by
  decide

/-- C1 (amended): when the cross-encoder model fails to load, the retriever
returned by `create_retriever` is the base retriever itself, so relative to
the Vector Index's candidates it is an identity pass-through on the whole
candidate list — every candidate is returned unchanged and in the original
order, with no truncation to `top_n`. -/
theorem create_retriever_fallback_passthrough (base : String → List Document)
    (top_n : Nat) (query : String) :
    create_retriever none base top_n query = base query := rfl

/-- C2: the producer that builds a `SimpleVectorStore` is bound to it: the
store built from `model` records `model` itself as its `embedding_model`,
its stored vectors are exactly `model`'s batch embeddings of the truthy
document contents, and every similarity computed at query time compares
`model`'s embedding of the query against those same stored vectors. -/
theorem simple_store_binds_producer (sq : ℚ → ℚ) (model : EmbeddingModel)
    (docs : List Document) (query : String) :
    (SimpleVectorStore.create model docs).embedding_model = model ∧
    (SimpleVectorStore.create model docs).embeddings =
      model.embed_documents
        ((docs.filter (fun d => d.page_content != "")).map (fun d => d.page_content)) ∧
    similarity_list sq (SimpleVectorStore.create model docs) query =
      (model.embed_documents
        ((docs.filter (fun d => d.page_content != "")).map (fun d => d.page_content))).enum.map
        (fun p => (cosine_similarity sq (model.embed_query query) p.2, p.1)) :=
  ⟨rfl, rfl, rfl⟩

/-- C4: `similarity_search` returns at most `k` documents, the similarity
scores of the sorted candidate list it draws them from (truncated to `k`)
are non-increasing, and each pair in the underlying `similarities` list is
the cosine similarity between the query embedding produced by the store's
model and the stored embedding at that pair's index. -/
theorem similarity_search_spec (sq : ℚ → ℚ) (store : SimpleVectorStore)
    (query : String) (k : Nat) :
    (similarity_search sq store query k).length ≤ k ∧
    (((sorted_similarities sq store query).take k).map Prod.fst).Sorted (· ≥ ·) ∧
    similarity_list sq store query =
      store.embeddings.enum.map
        (fun p => (cosine_similarity sq (store.embedding_model.embed_query query) p.2, p.1)) := by
  refine ⟨?_, sorted_similarities_take_sorted sq store query k, rfl⟩
  unfold similarity_search
  split
  · simp
  · calc (((sorted_similarities sq store query).take k).filterMap
          (fun p => store.documents.get? p.2)).length
        ≤ ((sorted_similarities sq store query).take k).length :=
          List.length_filterMap_le _ _
      _ ≤ k := by
          rw [List.length_take]
          exact min_le_left _ _

/-- C5: the cosine similarity of `SimpleVectorStore` is total: whenever
either vector has zero magnitude (zero sum of squares, hence zero norm) the
result is `0`, and in general the division branch is only reached with both
norms nonzero. The hypothesis `sq 0 = 0` states that the machine square
root of zero is zero. -/
theorem cosine_similarity_zero_guard (sq : ℚ → ℚ) (v1 v2 : List ℚ) (hsq : sq 0 = 0) :
    (sumSq v1 = 0 ∨ sumSq v2 = 0 → cosine_similarity sq v1 v2 = 0) ∧
    (cosine_similarity sq v1 v2 = 0 ∨ (sq (sumSq v1) ≠ 0 ∧ sq (sumSq v2) ≠ 0)) := by
  constructor
  · intro h
    unfold cosine_similarity
    rcases h with h | h <;> rw [h, hsq] <;> simp
  · unfold cosine_similarity
    by_cases h : sq (sumSq v1) = 0 ∨ sq (sumSq v2) = 0
    · left
      simp [h]
    · right
      push_neg at h
      exact h

/-- C5 witness: the zero vector `[0]` has zero magnitude and its cosine
similarity against `[1]` is `0`, with the identity as a square root valid
at zero. -/
theorem cosine_similarity_zero_guard_witness :
    cosine_similarity (fun q => q) [0] [1] = 0 :=
  (cosine_similarity_zero_guard (fun q => q) [0] [1] rfl).1
    (Or.inl (by norm_num [sumSq]))

/-- C8: for every filename whose extension (lowercased text after the last
dot) is not one of the six supported ones, `load_documents` fails with the
`Unsupported file type` error naming that extension, and no loader is
selected. -/
theorem load_documents_unsupported (filename : String)
    (h : file_extension filename ∉
      ["pdf".data, "doc".data, "docx".data, "xls".data, "xlsx".data, "txt".data]) :
    load_documents filename =
      .error ("Unsupported file type: " ++ String.mk (file_extension filename)) := by
  simp only [List.mem_cons, List.not_mem_nil, or_false, not_or] at h
  obtain ⟨h1, h2, h3, h4, h5, h6⟩ := h
  simp [load_documents, h1, h2, h3, h4, h5, h6]

/-- C8 witness: `load_documents` on `data.csv` fails with the error naming
the `csv` extension. -/
theorem load_documents_unsupported_witness :
    load_documents "data.csv" =
      .error ("Unsupported file type: " ++ String.mk (file_extension "data.csv")) :=
  load_documents_unsupported "data.csv" (by decide)

/-- C9: searching a store that holds no embeddings returns the empty list:
the guard on the embedding list precedes the query-embedding call, so the
result is `[]` for every query, every `k` and every embedding model. -/
theorem similarity_search_empty (sq : ℚ → ℚ) (store : SimpleVectorStore)
    (query : String) (k : Nat) (h : store.embeddings = []) :
    similarity_search sq store query k = [] := by
  simp [similarity_search, h]

/-- C9 witness: searching the concrete empty store returns the empty list. -/
theorem similarity_search_empty_witness :
    similarity_search (fun q => q) storeE "x" 5 = [] :=
  similarity_search_empty (fun q => q) storeE "x" 5 rfl

/-- The vector produced by `_create_random_embedding` does not depend on the
incoming generator state: the call reseeds with the fixed seed 42 first. -/
theorem create_random_embedding_state_free (ctx : PyExternals) (dims : Nat)
    (s s' : Nat) :
    (LocalEmbeddings.create_random_embedding ctx dims s).1 =
      (LocalEmbeddings.create_random_embedding ctx dims s').1 := rfl

/-- The vector produced by `embed_query` does not depend on the incoming
generator state. -/
theorem embed_query_state_free (ctx : PyExternals) (dims : Nat) (text : String)
    (s s' : Nat) :
    (LocalEmbeddings.embed_query ctx dims text s).1 =
      (LocalEmbeddings.embed_query ctx dims text s').1 := by
  unfold LocalEmbeddings.embed_query
  cases h : isBlank text <;> simp only [h, Bool.false_eq_true, if_false, if_true, ite_true, ite_false]
  rfl

/-- The vectors produced by the `embed_documents` loop do not depend on the
incoming generator state. -/
theorem embed_documents_loop_state_free (ctx : PyExternals) (dims : Nat) :
    ∀ (texts : List String) (s s' : Nat),
      (LocalEmbeddings.embed_documents_loop ctx dims texts s).1 =
        (LocalEmbeddings.embed_documents_loop ctx dims texts s').1 := by
  intro texts
  induction texts with
  | nil => intro s s'; rfl
  | cons t rest ih =>
    intro s s'
    unfold LocalEmbeddings.embed_documents_loop
    cases h : isBlank t <;> simp only [h, Bool.false_eq_true, if_false, if_true, ite_true, ite_false]
    · exact congrArg₂ List.cons rfl (ih _ _)
    · exact congrArg₂ List.cons rfl (ih _ _)

/-- C6: embedding is deterministic within one provider instance: for either
strategy (the primary model, or the `LocalEmbeddings` fallback with its
reseeded random path), two calls of `embed_query` on the same text — in
arbitrary global generator states `s₁`, `s₂` — return the same vector, and
likewise two calls of the batch embedding on the same text list. -/
theorem embedding_deterministic (ctx : PyExternals) (dims : Nat)
    (strat : EmbeddingStrategy) (text : String) (texts : List String) (s₁ s₂ : Nat) :
    (strategy_embed_query ctx dims strat text s₁).1 =
      (strategy_embed_query ctx dims strat text s₂).1 ∧
    (strategy_embed_batch ctx dims strat texts s₁).1 =
      (strategy_embed_batch ctx dims strat texts s₂).1 := by
  cases strat with
  | primary m => exact ⟨rfl, rfl⟩
  | fallback =>
    refine ⟨embed_query_state_free ctx dims text s₁ s₂, ?_⟩
    unfold strategy_embed_batch LocalEmbeddings.embed_documents
    cases h : texts.isEmpty <;> simp only [h, Bool.false_eq_true, if_false, if_true, ite_true, ite_false]
    exact embed_documents_loop_state_free ctx dims texts s₁ s₂

/-- Scaling every entry of a vector by `1 / c` divides its sum of squares
by `c ^ 2`. -/
theorem sumSq_map_div (l : List ℚ) (c : ℚ) :
    sumSq (l.map fun x => x / c) = sumSq l / c ^ 2 := by
  induction l with
  | nil => simp [sumSq]
  | cons x xs ih =>
    simp only [List.map_cons, sumSq, List.sum_cons] at *
    rw [ih]
    rw [div_mul_div_comm, ← pow_two c, div_add_div_same]

/-- C7: on empty or whitespace-only text, `embed_query` returns the
`_create_random_embedding` vector instead of hashing: the result is the
same fixed vector on every call (any two generator states `s`, `s'`), and
it is a unit vector — its sum of squares is `1` — provided the machine
square root is exact and positive at the one argument where the code uses
it (the raw vector's sum of squares). -/
theorem embed_query_whitespace (ctx : PyExternals) (dims : Nat) (text : String)
    (s s' : Nat) (hws : isBlank text = true)
    (hsq : ctx.sqrt (sumSq (LocalEmbeddings.uniform_list ctx.uniform dims (ctx.seed 42)).1) ^ 2 =
      sumSq (LocalEmbeddings.uniform_list ctx.uniform dims (ctx.seed 42)).1)
    (hpos : 0 < ctx.sqrt (sumSq (LocalEmbeddings.uniform_list ctx.uniform dims (ctx.seed 42)).1)) :
    (LocalEmbeddings.embed_query ctx dims text s).1 =
      (LocalEmbeddings.create_random_embedding ctx dims s).1 ∧
    (LocalEmbeddings.embed_query ctx dims text s).1 =
      (LocalEmbeddings.embed_query ctx dims text s').1 ∧
    sumSq (LocalEmbeddings.embed_query ctx dims text s).1 = 1 := by
  have hq : (LocalEmbeddings.embed_query ctx dims text s).1 =
      (LocalEmbeddings.create_random_embedding ctx dims s).1 := by
    unfold LocalEmbeddings.embed_query
    rw [if_pos hws]
  refine ⟨hq, embed_query_state_free ctx dims text s s', ?_⟩
  rw [hq]
  unfold LocalEmbeddings.create_random_embedding
  simp only
  rw [if_pos hpos, sumSq_map_div, hsq]
  have hne : sumSq (LocalEmbeddings.uniform_list ctx.uniform dims (ctx.seed 42)).1 ≠ 0 := by
    rw [← hsq]
    exact pow_ne_zero 2 hpos.ne'
  exact div_self hne

/-- C7 witness: with the concrete externals `ctxW` and dimension 2, the
raw random vector is `[3/5, 4/5]`, whose sum of squares is `1`; the blank
query `" "` therefore gets the same unit vector in any two generator
states. -/
theorem embed_query_whitespace_witness :
    (LocalEmbeddings.embed_query ctxW 2 " " 0).1 =
      (LocalEmbeddings.create_random_embedding ctxW 2 0).1 ∧
    (LocalEmbeddings.embed_query ctxW 2 " " 0).1 =
      (LocalEmbeddings.embed_query ctxW 2 " " 7).1 ∧
    sumSq (LocalEmbeddings.embed_query ctxW 2 " " 0).1 = 1 := by
  have hraw : (LocalEmbeddings.uniform_list ctxW.uniform 2 (ctxW.seed 42)).1 = [3/5, 4/5] := rfl
  refine embed_query_whitespace ctxW 2 " " 0 7 (by decide) ?_ ?_
  · rw [hraw]
    norm_num [sumSq, ctxW]
  · rw [hraw]
    norm_num [sumSq, ctxW]

/-- A run of `n` uniform draws yields `n` values. -/
theorem uniform_list_length (u : Nat → ℚ × Nat) :
    ∀ (n s : Nat), ((LocalEmbeddings.uniform_list u n s).1).length = n := by
  intro n
  induction n with
  | zero => intro s; rfl
  | succ m ih =>
    intro s
    unfold LocalEmbeddings.uniform_list
    simp only [List.length_cons, ih]

/-- The padding loop adds exactly `fuel` entries. -/
theorem extend_loop_length :
    ∀ (fuel : Nat) (numbers : List Nat),
      (LocalEmbeddings.extend_loop fuel numbers).length = numbers.length + fuel := by
  intro fuel
  induction fuel with
  | zero => intro numbers; rfl
  | succ n ih =>
    intro numbers
    unfold LocalEmbeddings.extend_loop
    rw [ih]
    simp only [List.length_append, List.length_cons, List.length_nil]
    omega

/-- The pad-or-truncate step always produces exactly `dims` entries. -/
theorem pad_or_truncate_length (dims : Nat) (numbers : List Nat) :
    (LocalEmbeddings.pad_or_truncate dims numbers).length = dims := by
  unfold LocalEmbeddings.pad_or_truncate
  by_cases h : numbers.length < dims
  · rw [if_pos h, extend_loop_length]
    omega
  · rw [if_neg h, List.length_take]
    omega

/-- The padding loop preserves the byte bound `255`: every appended entry
is reduced modulo 256. -/
theorem extend_loop_le :
    ∀ (fuel : Nat) (numbers : List Nat), (∀ n ∈ numbers, n ≤ 255) →
      ∀ n ∈ LocalEmbeddings.extend_loop fuel numbers, n ≤ 255 := by
  intro fuel
  induction fuel with
  | zero => intro numbers h; exact h
  | succ m ih =>
    intro numbers h
    unfold LocalEmbeddings.extend_loop
    refine ih _ ?_
    intro n hn
    rcases List.mem_append.mp hn with hn | hn
    · exact h n hn
    · rcases List.mem_singleton.mp hn with rfl
      have : (numbers.getD (numbers.length % numbers.length) 0 + numbers.length) % 256 < 256 :=
        Nat.mod_lt _ (by norm_num)
      omega

/-- Every entry of the pad-or-truncate output is at most `255` when the
input bytes are. -/
theorem pad_or_truncate_le (dims : Nat) (numbers : List Nat)
    (h : ∀ n ∈ numbers, n ≤ 255) :
    ∀ n ∈ LocalEmbeddings.pad_or_truncate dims numbers, n ≤ 255 := by
  unfold LocalEmbeddings.pad_or_truncate
  by_cases hlt : numbers.length < dims
  · rw [if_pos hlt]
    exact extend_loop_le _ _ h
  · rw [if_neg hlt]
    intro n hn
    exact h n (List.take_subset dims numbers hn)

/-- C10: every vector produced by the fallback `LocalEmbeddings` provider at
its default dimensionality — whether by `embed_query` or `embed_documents`,
on blank or non-blank input — has exactly 384 entries, and on the hash path
(`_text_to_embedding`) every entry lies in `[0, 1]`. The hypothesis states
the MD5 property that every digest byte is at most 255. -/
theorem local_embeddings_output_contract (ctx : PyExternals)
    (hbytes : ∀ t : String, ∀ n ∈ ctx.md5_bytes t, n ≤ 255) :
    (∀ (text : String) (s : Nat),
      ((LocalEmbeddings.embed_query ctx 384 text s).1).length = 384) ∧
    (∀ (texts : List String) (s : Nat),
      ∀ e ∈ (LocalEmbeddings.embed_documents ctx 384 texts s).1, e.length = 384) ∧
    (∀ text : String, ∀ x ∈ LocalEmbeddings.text_to_embedding ctx 384 text,
      0 ≤ x ∧ x ≤ 1) := by
  have hrand : ∀ s : Nat, ((LocalEmbeddings.create_random_embedding ctx 384 s).1).length = 384 := by
    intro s
    unfold LocalEmbeddings.create_random_embedding
    simp only
    split
    · rw [List.length_map, uniform_list_length]
    · rw [uniform_list_length]
  have htte : ∀ text : String, (LocalEmbeddings.text_to_embedding ctx 384 text).length = 384 := by
    intro text
    unfold LocalEmbeddings.text_to_embedding
    rw [List.length_map, pad_or_truncate_length]
  have hq : ∀ (text : String) (s : Nat),
      ((LocalEmbeddings.embed_query ctx 384 text s).1).length = 384 := by
    intro text s
    unfold LocalEmbeddings.embed_query
    split
    · exact hrand s
    · exact htte text
  refine ⟨hq, ?_, ?_⟩
  · have hloop : ∀ (texts : List String) (s : Nat),
        ∀ e ∈ (LocalEmbeddings.embed_documents_loop ctx 384 texts s).1, e.length = 384 := by
      intro texts
      induction texts with
      | nil => intro s e he; exact absurd he (List.not_mem_nil e)
      | cons t rest ih =>
        intro s e he
        unfold LocalEmbeddings.embed_documents_loop at he
        simp only [List.mem_cons] at he
        rcases he with rfl | he
        · by_cases h : isBlank t
          · simp only [h, if_true, ite_true]
            exact hrand s
          · simp only [h, Bool.false_eq_true, if_false, ite_false]
            exact htte t
        · exact ih _ e he
    intro texts s e he
    unfold LocalEmbeddings.embed_documents at he
    rcases he' : texts.isEmpty with _ | _
    · rw [he'] at he
      simp only [Bool.false_eq_true, if_false, ite_false] at he
      exact hloop texts s e he
    · rw [he'] at he
      simp only [if_true, ite_true] at he
      exact absurd he (List.not_mem_nil e)
  · intro text x hx
    unfold LocalEmbeddings.text_to_embedding at hx
    rcases List.mem_map.mp hx with ⟨n, hn, rfl⟩
    have hb : n ≤ 255 := pad_or_truncate_le 384 _ (hbytes text) n hn
    constructor
    · positivity
    · rw [div_le_one (by norm_num)]
      exact_mod_cast hb

/-- The concrete externals `ctxW` satisfy the MD5 byte bound. -/
theorem ctxW_bytes_le : ∀ t : String, ∀ n ∈ ctxW.md5_bytes t, n ≤ 255 := by
  intro t
  have h : ctxW.md5_bytes t = md5aBytes := rfl
  rw [h]
  decide

/-- C10 witness: the concrete externals `ctxW` satisfy the byte bound, and
`embed_query` on the text "a" produces a 384-entry vector. -/
theorem local_embeddings_output_contract_witness :
    ((LocalEmbeddings.embed_query ctxW 384 "a" 0).1).length = 384 :=
  (local_embeddings_output_contract ctxW ctxW_bytes_le).1 "a" 0

/-- The padding loop of `_text_to_embedding`, started on a non-empty list,
appends `(head + i) mod 256` at every position `i`: the source indexes the
growing list at `i % len(numbers)` where `len(numbers)` equals `i` itself,
so the index is always `0`. -/
theorem extend_loop_eq :
    ∀ (fuel : Nat) (numbers : List Nat), numbers ≠ [] →
      LocalEmbeddings.extend_loop fuel numbers =
        numbers ++ (List.range' numbers.length fuel).map
          (fun i => (numbers.headD 0 + i) % 256) := by
  intro fuel
  induction fuel with
  | zero =>
    intro numbers _
    simp [LocalEmbeddings.extend_loop]
  | succ n ih =>
    intro numbers hne
    obtain ⟨a, t, rfl⟩ : ∃ a t, numbers = a :: t := by
      cases numbers with
      | nil => exact absurd rfl hne
      | cons a t => exact ⟨a, t, rfl⟩
    have step : LocalEmbeddings.extend_loop (n + 1) (a :: t) =
        LocalEmbeddings.extend_loop n ((a :: t) ++ [(a + (a :: t).length) % 256]) := by
      simp [LocalEmbeddings.extend_loop, Nat.mod_self]
    rw [step, ih _ (by simp), List.range'_succ]
    simp only [List.cons_append, List.headD_cons, List.length_append, List.length_cons,
      List.length_nil, List.map_cons, List.nil_append]
    rw [← List.append_cons]

/-- C3 (amended): for every text whose hash-byte sequence is non-empty and
at most 384 bytes long, the fallback embedding equals the hash bytes
extended to 384 entries by `value[i] = (value[0] + i) mod 256` — the FIRST
hash byte, not `value[i mod hash_len]` — each divided by 255. The source
indexes the growing list at `i % len(numbers)`, and `len(numbers)` equals
`i` at every iteration, so the read index is always `0`. -/
theorem text_to_embedding_head_extension (ctx : PyExternals) (text : String)
    (hne : ctx.md5_bytes text ≠ []) (hlen : (ctx.md5_bytes text).length ≤ 384) :
    LocalEmbeddings.text_to_embedding ctx 384 text =
      List.map (fun (num : Nat) => (num : ℚ) / 255)
        (ctx.md5_bytes text ++
          (List.range' (ctx.md5_bytes text).length (384 - (ctx.md5_bytes text).length)).map
            (fun i => ((ctx.md5_bytes text).headD 0 + i) % 256)) := by
  by_cases h : (ctx.md5_bytes text).length < 384
  · simp only [LocalEmbeddings.text_to_embedding, LocalEmbeddings.pad_or_truncate, if_pos h]
    rw [extend_loop_eq _ _ hne]
  · simp only [LocalEmbeddings.text_to_embedding, LocalEmbeddings.pad_or_truncate, if_neg h]
    have h0 : 384 - (ctx.md5_bytes text).length = 0 := by omega
    rw [h0, List.take_of_length_le hlen]
    simp

/-- C3 witness for the amended claim: instantiated at the concrete
externals `ctxW` (whose hash bytes are those of the text "a"). -/
theorem text_to_embedding_head_extension_witness :
    LocalEmbeddings.text_to_embedding ctxW 384 "a" =
      List.map (fun (num : Nat) => (num : ℚ) / 255)
        (ctxW.md5_bytes "a" ++
          (List.range' (ctxW.md5_bytes "a").length (384 - (ctxW.md5_bytes "a").length)).map
            (fun i => ((ctxW.md5_bytes "a").headD 0 + i) % 256)) :=
  text_to_embedding_head_extension ctxW "a" (by decide) (by decide)

set_option maxRecDepth 100000 in
/-- C3 counterexample: with the MD5 bytes of the text "a", the embedding
computed by the source differs from the claim's reference definition
(`value[i] = (value[i mod hash_len] + i) mod 256`): at index 17 the source
produces `(12 + 17) mod 256 = 29` from the first byte while the reference
produces `(193 + 17) mod 256 = 210` from byte 1. -/
theorem text_to_embedding_ne_spec :
    LocalEmbeddings.text_to_embedding ctxW 384 "a" ≠ spec_text_to_embedding ctxW 384 "a" := by
  intro h
  simp only [LocalEmbeddings.text_to_embedding, spec_text_to_embedding,
    spec_hash_embedding] at h
  have hinj : Function.Injective (fun (num : Nat) => (num : ℚ) / 255) := by
    intro a b hab
    simp only at hab
    field_simp at hab
    exact_mod_cast hab
  have hlists := List.map_injective_iff.mpr hinj h
  have hne : LocalEmbeddings.pad_or_truncate 384 (ctxW.md5_bytes "a") ≠
      (spec_extend 384 (ctxW.md5_bytes "a")).take 384 := by decide
  exact hne hlists

end SmartDoc
